import Mathlib

/-
  Shallow embedding of the Atlas Air virtual-airline web app (src/app.py).

  Modelling conventions:
  * Python `str` values that the code manipulates character-wise
    (aircraft_owned, flight numbers, shop item ids) are `List Char`;
    strings that are only stored or compared wholesale (status, names,
    airports) are Lean `String`.
  * Machine integers are `Int` (Python ints are unbounded; the client can
    POST a negative `duration`).
  * `int(x / 3600)` in Python truncates the quotient toward zero; for the
    integer durations considered here this is `Int.tdiv x 3600` (float
    division is exact relative to truncation for all realistic magnitudes).
  * `datetime` values are abstract `Nat` ticks supplied by the caller
    (`datetime.utcnow()` becomes an explicit `now` argument).
  * The SQLAlchemy session is a `DB` record of pilot and flight-log rows;
    `Model.query.get` is a `find?` by primary key and a committed UPDATE
    replaces the row with the matching primary key.
  * A request that errors out (401/404/flash-redirect) commits nothing, so
    the fallible operations return `Except`; the `step` function applies an
    operation to the database, leaving it unchanged on error.
  * Flask session auth: the acting pilot id (`session['pilot_id']`) is an
    explicit argument; the unauthenticated-redirect branch (no session) is
    outside the scope of the claims.  `Pilot.password_hash` and the
    werkzeug hashing are external collaborators and are omitted.
-/

/-! ## Python string primitives used by `Pilot.get_aircraft_list` -/

/-- Python `str.strip()` whitespace set (ASCII part). -/
def pyIsSpace (c : Char) : Bool :=
  c == ' ' || c == '\t' || c == '\n' || c == '\x0d' || c == '\x0b' || c == '\x0c'

/-- Python `s.strip()` on a character list. -/
def pyStrip (s : List Char) : List Char :=
  ((s.dropWhile pyIsSpace).reverse.dropWhile pyIsSpace).reverse

/-- Python `s.split(',')`: splits on every comma; `''.split(',') == ['']`. -/
def pySplitComma : List Char → List (List Char)
  | [] => [[]]
  | c :: rest =>
      if c = ',' then [] :: pySplitComma rest
      else
        match pySplitComma rest with
        | [] => [[c]]
        | g :: gs => (c :: g) :: gs

/-- Python `', '.join(items)`. -/
def joinCommaSpace : List (List Char) → List Char
  | [] => []
  | [x] => x
  | x :: xs => x ++ ',' :: ' ' :: joinCommaSpace xs

/-! ## Data model: `Pilot` (src/app.py lines 33-63) -/

structure Pilot where
  id : Nat
  username : String
  name : String
  callsign : String
  rank : String
  balance : Int
  hours : Int
  completed_flights : Int
  aircraft_owned : List Char   -- stored as comma-separated string
  cargo_delivered : Int
  status : String
  created_at : Nat
deriving DecidableEq, Repr

/-- Source `Pilot.get_aircraft_list` (line 54): split the comma-separated string,
strip each item, keep the non-empty ones; empty string gives `[]`. -/
def Pilot.get_aircraft_list (p : Pilot) : List (List Char) :=
  if p.aircraft_owned ≠ [] then
    ((pySplitComma p.aircraft_owned).map pyStrip).filter (fun item => item ≠ [])
  else []

/-- Source `Pilot.add_aircraft` (line 59): append the id unless already present and
re-join with `', '`. -/
def Pilot.add_aircraft (p : Pilot) (aircraft_id : List Char) : Pilot :=
  let current_aircraft := p.get_aircraft_list
  if aircraft_id ∉ current_aircraft then
    { p with aircraft_owned := joinCommaSpace (current_aircraft ++ [aircraft_id]) }
  else p

/-! ## Shop catalog (src/app.py lines 121-214), flattened in the dict's
iteration order: aircraft, roles, missions.  Only the fields `purchase`
reads are kept (`id`, `name`, `price`). -/

structure ShopItem where
  id : List Char
  name : String
  price : Int
deriving DecidableEq, Repr

def SHOP_ITEMS : List ShopItem :=
  [ ⟨"boeing_767".toList, "Boeing 767-300F", 25000⟩,
    ⟨"boeing_777".toList, "Boeing 777F", 35000⟩,
    ⟨"airbus_a330".toList, "Airbus A330-200F", 32000⟩,
    ⟨"boeing_747".toList, "Boeing 747-8F", 45000⟩,
    ⟨"first_officer".toList, "First Officer Certification", 5000⟩,
    ⟨"captain".toList, "Captain Certification", 12000⟩,
    ⟨"check_airman".toList, "Check Airman Certification", 20000⟩,
    ⟨"cargo_express".toList, "Express Cargo Mission", 2500⟩,
    ⟨"international_freight".toList, "International Freight Route", 4000⟩,
    ⟨"emergency_medical".toList, "Emergency Medical Transport", 6000⟩ ]

/-- Error taxonomy of the `/purchase/<item_id>` route (lines 344-356):
item not in catalog, already in the owned set, or balance below price. -/
inductive PurchaseError where
  | notFound
  | alreadyOwned
  | insufficientFunds
deriving DecidableEq, Repr

/-- Source `purchase` (lines 327-364), acting on the logged-in pilot's row.
Every flash-and-redirect branch commits nothing, hence `Except`. -/
def purchase (p : Pilot) (item_id : List Char) : Except PurchaseError Pilot :=
  match SHOP_ITEMS.find? (fun it => it.id = item_id) with
  | none => .error .notFound
  | some item =>
    if item_id ∈ p.get_aircraft_list then .error .alreadyOwned
    else if p.balance < item.price then .error .insufficientFunds
    else .ok (({ p with balance := p.balance - item.price }).add_aircraft item_id)

/-- The pilot row after the `/purchase` request: updated on success,
untouched when the request flashes an error. -/
def purchase_commit (p : Pilot) (item_id : List Char) : Pilot :=
  match purchase p item_id with
  | .ok p' => p'
  | .error _ => p

/-! ## Data model: `FlightLog` (src/app.py lines 65-79) -/

structure FlightLog where
  id : Nat
  pilot_id : Nat
  flight_number : List Char
  aircraft_type : String
  departure_airport : String
  arrival_airport : String
  cargo_type : String
  departure_time : Nat
  flight_duration : Int
  status : String           -- "In Progress", "Paused", "Completed"
  created_at : Nat
  completed_at : Option Nat
deriving DecidableEq, Repr

/-- Database state: the pilot and flight-log tables. -/
structure DB where
  pilots : List Pilot
  logs : List FlightLog
deriving DecidableEq, Repr

/-- Lookup `Pilot.query.get(pid)`. -/
def DB.getPilot (db : DB) (pid : Nat) : Option Pilot :=
  db.pilots.find? (fun p => p.id = pid)

/-- Lookup `FlightLog.query.get(lid)`. -/
def DB.getLog (db : DB) (lid : Nat) : Option FlightLog :=
  db.logs.find? (fun l => l.id = lid)

/-- Commit an updated pilot row (replace the row with the same primary key). -/
def DB.setPilot (db : DB) (p : Pilot) : DB :=
  { db with pilots := db.pilots.map (fun q => if q.id = p.id then p else q) }

/-- Commit an updated flight-log row. -/
def DB.setLog (db : DB) (l : FlightLog) : DB :=
  { db with logs := db.logs.map (fun m => if m.id = l.id then l else m) }

/-- Errors of the JSON API routes: 401 `Unauthorized`, 404 from
`get_or_404`, and the 500 the interpreter raises when `end_flight`
dereferences a missing pilot row (line 570 would raise AttributeError). -/
inductive ApiError where
  | unauthorized
  | notFound
  | serverError
deriving DecidableEq, Repr

/-- Error of `add_flight_log`'s validation (lines 462-464): flash
"Flight number must be in GTI_XXXX format" and create nothing. -/
inductive CreateError where
  | invalidInput
deriving DecidableEq, Repr

/-- Source `add_flight_log` POST branch (lines 443-487).  The flight number must
start with `GTI_` and have length ≥ 5; airports are upper-cased; the new
log gets the column defaults `flight_duration = 0`, `status = 'In
Progress'`, `completed_at = NULL`.  `departure_time` arrives already
parsed (the ISO-8601 parse is outside the claims); `new_id` is the
autoincrement key and `now` the `created_at` clock tick. -/
def add_flight_log (db : DB) (pilot_id : Nat) (flight_number : List Char)
    (aircraft_type departure_airport arrival_airport cargo_type : String)
    (departure_time : Nat) (new_id : Nat) (now : Nat) :
    Except CreateError (DB × Nat) :=
  if ¬ ("GTI_".toList.isPrefixOf flight_number) ∨ flight_number.length < 5 then
    .error .invalidInput
  else
    let new_log : FlightLog :=
      { id := new_id
        pilot_id := pilot_id
        flight_number := flight_number
        aircraft_type := aircraft_type
        departure_airport := departure_airport.toUpper
        arrival_airport := arrival_airport.toUpper
        cargo_type := cargo_type
        departure_time := departure_time
        flight_duration := 0
        status := "In Progress"
        created_at := now
        completed_at := none }
    .ok ({ db with logs := db.logs ++ [new_log] }, new_id)

/-- Source `pause_flight` (lines 531-544): 404 if the log id is unknown, 401 if
the log's pilot is not the session pilot, otherwise unconditionally set
status to `'Paused'` and commit. -/
def pause_flight (db : DB) (session_pilot : Nat) (log_id : Nat) :
    Except ApiError (DB × String) :=
  match db.getLog log_id with
  | none => .error .notFound
  | some flight_log =>
    if flight_log.pilot_id ≠ session_pilot then .error .unauthorized
    else .ok (db.setLog { flight_log with status := "Paused" }, "paused")

/-- Source `resume_flight` (lines 546-559): same shape, unconditionally sets
status to `'In Progress'`. -/
def resume_flight (db : DB) (session_pilot : Nat) (log_id : Nat) :
    Except ApiError (DB × String) :=
  match db.getLog log_id with
  | none => .error .notFound
  | some flight_log =>
    if flight_log.pilot_id ≠ session_pilot then .error .unauthorized
    else .ok (db.setLog { flight_log with status := "In Progress" }, "resumed")

/-- The JSON body `end_flight` returns (lines 590-598), reward fields only. -/
structure EndResponse where
  hours_added : Int
  cargo_added : Int
  money_earned : Int
deriving DecidableEq, Repr

/-- Source `end_flight` (lines 561-598): after the 404/401 checks, set the log to
`Completed` with `flight_duration = duration` and `completed_at = now`,
then credit the pilot: `hours += int(duration/3600)` (truncation toward
zero), `completed_flights += 1`, `cargo_delivered += 50`, `balance += 50`.
`duration` is whatever number the client posted (default 0 handled by the
caller). -/
def end_flight (db : DB) (session_pilot : Nat) (log_id : Nat)
    (duration : Int) (now : Nat) : Except ApiError (DB × EndResponse) :=
  match db.getLog log_id with
  | none => .error .notFound
  | some flight_log =>
    match db.getPilot session_pilot with
    | none => .error .serverError
    | some pilot =>
      if flight_log.pilot_id ≠ pilot.id then .error .unauthorized
      else
        let log' : FlightLog :=
          { flight_log with
              status := "Completed"
              flight_duration := duration
              completed_at := some now }
        let hours_added : Int := duration.tdiv 3600
        let pilot' : Pilot :=
          { pilot with
              hours := pilot.hours + hours_added
              completed_flights := pilot.completed_flights + 1
              cargo_delivered := pilot.cargo_delivered + 50
              balance := pilot.balance + 50 }
        .ok ((db.setLog log').setPilot pilot',
             ⟨hours_added, 50, 50⟩)

/-! ## Request traces over the four public flight-log operations -/

inductive OpCall where
  | create (pilot_id : Nat) (flight_number : List Char)
      (aircraft_type departure_airport arrival_airport cargo_type : String)
      (departure_time new_id now : Nat)
  | pause (session_pilot log_id : Nat)
  | resume (session_pilot log_id : Nat)
  | endF (session_pilot log_id : Nat) (duration : Int) (now : Nat)
deriving DecidableEq, Repr

/-- One HTTP request: apply the operation, keep the old database when the
request errors out (an erroring request commits nothing). -/
def step (db : DB) : OpCall → DB
  | .create pid fn at_ dep arr cargo dt nid now =>
      match add_flight_log db pid fn at_ dep arr cargo dt nid now with
      | .ok (db', _) => db'
      | .error _ => db
  | .pause sp lid =>
      match pause_flight db sp lid with
      | .ok (db', _) => db'
      | .error _ => db
  | .resume sp lid =>
      match resume_flight db sp lid with
      | .ok (db', _) => db'
      | .error _ => db
  | .endF sp lid d now =>
      match end_flight db sp lid d now with
      | .ok (db', _) => db'
      | .error _ => db

/-- A sequence of requests. -/
def run (db : DB) (ops : List OpCall) : DB :=
  ops.foldl step db

/-- The seeded sample pilot (src/app.py lines 84-98). -/
def samplePilot : Pilot :=
  { id := 1
    username := "pilot001"
    name := "Captain John Smith"
    callsign := "ATLAS001"
    rank := "Captain"
    balance := 45000
    hours := 0
    completed_flights := 0
    aircraft_owned := "boeing_767, boeing_777".toList
    cargo_delivered := 0
    status := "Active"
    created_at := 0 }

/-- Fresh database: the seeded pilot, no flight logs. -/
def db0 : DB := { pilots := [samplePilot], logs := [] }

/-! ## Concrete fixtures used by witnesses and counterexamples -/

/-- A log freshly created with `flight_number = 'GTI_42'` by the sample pilot. -/
def logGTI42 : FlightLog :=
  { id := 1
    pilot_id := 1
    flight_number := "GTI_42".toList
    aircraft_type := "747-8F"
    departure_airport := "KJFK"
    arrival_airport := "EGLL"
    cargo_type := "General Freight"
    departure_time := 5
    flight_duration := 0
    status := "In Progress"
    created_at := 6
    completed_at := none }

/-- Database holding the sample pilot and one in-progress log. -/
def db1 : DB := { pilots := [samplePilot], logs := [logGTI42] }

/-- The same log after a completed one-hour flight. -/
def completedLog : FlightLog :=
  { logGTI42 with status := "Completed", flight_duration := 3600, completed_at := some 10 }

/-- Database holding the sample pilot and one completed log. -/
def dbC : DB := { pilots := [samplePilot], logs := [completedLog] }

/-- A second pilot, not the owner of `logGTI42`. -/
def pilot2 : Pilot :=
  { samplePilot with id := 2, username := "pilot002", callsign := "ATLAS002" }

/-- Two pilots, one log owned by pilot 1. -/
def db2p : DB := { pilots := [samplePilot, pilot2], logs := [logGTI42] }

/-- Database whose pilot has already accrued 5 hours. -/
def dbH : DB := { pilots := [{ samplePilot with hours := 5 }], logs := [logGTI42] }

/-! ## Predicates the claims quantify over -/

/-- Invariant: a log's `completed_at` is non-null iff its status is Completed. -/
def CompletedInv (db : DB) : Prop :=
  ∀ l ∈ db.logs, (l.completed_at ≠ none ↔ l.status = "Completed")

/-- Invariant: every stored flight number starts with `GTI_` and has length
at least 5 (exactly what `add_flight_log` enforces). -/
def FlightNumInv (db : DB) : Prop :=
  ∀ l ∈ db.logs,
    "GTI_".toList.isPrefixOf l.flight_number = true ∧ 5 ≤ l.flight_number.length

/-- An operation is guarded when pause/resume is not aimed at a log that is
already Completed (the latitude the reference code leaves open). -/
def safeOp (db : DB) : OpCall → Bool
  | .pause _ lid =>
      match db.getLog lid with
      | some l => l.status != "Completed"
      | none => true
  | .resume _ lid =>
      match db.getLog lid with
      | some l => l.status != "Completed"
      | none => true
  | _ => true

/-- A whole request trace is guarded step by step. -/
def safeOps : DB → List OpCall → Bool
  | _, [] => true
  | db, op :: rest => safeOp db op && safeOps (step db op) rest

/-- The operation is a flight-completion call with a nonnegative
client-reported duration. -/
def nonnegEndOp : OpCall → Prop
  | .endF _ _ d _ => 0 ≤ d
  | _ => False

/-- Componentwise order on the ledger statistics that flights credit. -/
def PilotLE (p q : Pilot) : Prop :=
  p.hours ≤ q.hours ∧ p.cargo_delivered ≤ q.cargo_delivered ∧
    p.completed_flights ≤ q.completed_flights

/-- Claim C5's own wording of the accepted flight-number format, modelled
from the spec: the literal prefix `GTI_` followed by one or more digits. -/
def specFlightNumberOk (fn : List Char) : Bool :=
  "GTI_".toList.isPrefixOf fn && decide (fn.drop 4 ≠ []) &&
    (fn.drop 4).all (fun c => c.isDigit)

/-! ## Row-lookup lemmas -/

theorem find?_map_preserving {α : Type} (u : α → α) (q : α → Bool)
    (hq : ∀ a, q (u a) = q a) (l : List α) :
    (l.map u).find? q = (l.find? q).map u := by
  induction l with
  | nil => rfl
  | cons a t ih =>
    cases h : q a with
    | true =>
      rw [List.map_cons, List.find?_cons_of_pos (List.map u t) (by rw [hq]; exact h),
        List.find?_cons_of_pos t h]
      rfl
    | false =>
      rw [List.map_cons, List.find?_cons_of_neg (List.map u t) (by simp [hq, h]),
        List.find?_cons_of_neg t (by simp [h]), ih]

theorem getPilot_setPilot (db : DB) (x : Pilot) (pid : Nat) :
    (db.setPilot x).getPilot pid =
      (db.getPilot pid).map (fun q => if q.id = x.id then x else q) := by
  unfold DB.setPilot DB.getPilot
  exact find?_map_preserving _ _ (fun a => by by_cases h : a.id = x.id <;> simp [h]) _

theorem getLog_setLog (db : DB) (x : FlightLog) (lid : Nat) :
    (db.setLog x).getLog lid =
      (db.getLog lid).map (fun m => if m.id = x.id then x else m) := by
  unfold DB.setLog DB.getLog
  exact find?_map_preserving _ _ (fun a => by by_cases h : a.id = x.id <;> simp [h]) _

theorem getPilot_setLog (db : DB) (x : FlightLog) (pid : Nat) :
    (db.setLog x).getPilot pid = db.getPilot pid := rfl

theorem getLog_setPilot (db : DB) (x : Pilot) (lid : Nat) :
    (db.setPilot x).getLog lid = db.getLog lid := rfl

theorem pilots_setLog (db : DB) (x : FlightLog) : (db.setLog x).pilots = db.pilots := rfl

theorem logs_setPilot (db : DB) (x : Pilot) : (db.setPilot x).logs = db.logs := rfl

theorem getPilot_eq_id {db : DB} {pid : Nat} {p : Pilot}
    (h : db.getPilot pid = some p) : p.id = pid := by
  simpa using List.find?_some h

theorem getLog_eq_id {db : DB} {lid : Nat} {l : FlightLog}
    (h : db.getLog lid = some l) : l.id = lid := by
  simpa using List.find?_some h

theorem mem_of_getLog {db : DB} {lid : Nat} {l : FlightLog}
    (h : db.getLog lid = some l) : l ∈ db.logs :=
  List.mem_of_find?_eq_some h

theorem getLog_setLog_self {db : DB} {lid : Nat} {l l' : FlightLog}
    (h : db.getLog lid = some l) (hid : l'.id = l.id) :
    (db.setLog l').getLog lid = some l' := by
  rw [getLog_setLog, h]
  simp [hid]

theorem getPilot_setPilot_self {db : DB} {pid : Nat} {p p' : Pilot}
    (h : db.getPilot pid = some p) (hid : p'.id = p.id) :
    (db.setPilot p').getPilot pid = some p' := by
  rw [getPilot_setPilot, h]
  simp [hid]

/-! ## Shape of each operation on the success path -/

theorem pause_flight_ok {db : DB} {sp lid : Nat} {l : FlightLog}
    (hl : db.getLog lid = some l) (hown : l.pilot_id = sp) :
    pause_flight db sp lid =
      .ok (db.setLog { l with status := "Paused" }, "paused") := by
  simp [pause_flight, hl, hown]

theorem resume_flight_ok {db : DB} {sp lid : Nat} {l : FlightLog}
    (hl : db.getLog lid = some l) (hown : l.pilot_id = sp) :
    resume_flight db sp lid =
      .ok (db.setLog { l with status := "In Progress" }, "resumed") := by
  simp [resume_flight, hl, hown]

theorem end_flight_ok {db : DB} {sp lid : Nat} {l : FlightLog} {p : Pilot}
    {d : Int} {now : Nat}
    (hl : db.getLog lid = some l) (hp : db.getPilot sp = some p)
    (hown : l.pilot_id = p.id) :
    end_flight db sp lid d now =
      .ok ((db.setLog
              { l with status := "Completed", flight_duration := d,
                       completed_at := some now }).setPilot
             { p with hours := p.hours + d.tdiv 3600,
                      completed_flights := p.completed_flights + 1,
                      cargo_delivered := p.cargo_delivered + 50,
                      balance := p.balance + 50 },
           ⟨d.tdiv 3600, 50, 50⟩) := by
  simp [end_flight, hl, hp, hown]

/-! ## Lemmas about the comma-separated aircraft encoding -/

theorem mem_pyStrip {c : Char} {s : List Char} (h : c ∈ pyStrip s) : c ∈ s := by
  unfold pyStrip at h
  have h1 : c ∈ (s.dropWhile pyIsSpace).reverse.dropWhile pyIsSpace :=
    List.mem_reverse.mp h
  have h2 : c ∈ (s.dropWhile pyIsSpace).reverse :=
    List.Sublist.mem h1 (List.dropWhile_sublist _)
  have h3 : c ∈ s.dropWhile pyIsSpace := List.mem_reverse.mp h2
  exact List.Sublist.mem h3 (List.dropWhile_sublist _)

theorem pySplitComma_no_comma :
    ∀ (l : List Char), ∀ g ∈ pySplitComma l, ',' ∉ g := by
  intro l
  induction l with
  | nil =>
    intro g hg
    have hge : g = [] := by simpa [pySplitComma] using hg
    rw [hge]
    exact List.not_mem_nil ','
  | cons c rest ih =>
    intro g hg
    by_cases hc : c = ','
    · simp [pySplitComma, hc] at hg
      rcases hg with rfl | hg
      · simp
      · exact ih g hg
    · cases hrest : pySplitComma rest with
      | nil =>
        simp [pySplitComma, hc, hrest] at hg
        simp [hg, hc, Ne.symm hc]
      | cons g0 gs =>
        simp [pySplitComma, hc, hrest] at hg
        rcases hg with rfl | hg
        · intro hmem
          rcases List.mem_cons.mp hmem with he | hmem0
          · exact hc he.symm
          · exact ih g0 (by rw [hrest]; exact List.mem_cons_self g0 gs) hmem0
        · exact ih g (by rw [hrest]; exact List.mem_cons_of_mem g0 hg)

theorem pySplitComma_of_no_comma :
    ∀ (l : List Char), ',' ∉ l → pySplitComma l = [l] := by
  intro l
  induction l with
  | nil => intro _; rfl
  | cons c rest ih =>
    intro h
    have hc : ¬ c = ',' := fun e => h (by rw [e]; exact List.mem_cons_self ',' rest)
    have hr : ',' ∉ rest := fun m => h (List.mem_cons_of_mem c m)
    simp [pySplitComma, hc, ih hr]

theorem pySplitComma_append :
    ∀ (a : List Char), ',' ∉ a → ∀ (b : List Char),
      pySplitComma (a ++ ',' :: b) = a :: pySplitComma b := by
  intro a
  induction a with
  | nil => intro _ b; simp [pySplitComma]
  | cons c t ih =>
    intro h b
    have hc : ¬ c = ',' := fun e => h (by rw [e]; exact List.mem_cons_self ',' t)
    have ht : ',' ∉ t := fun m => h (List.mem_cons_of_mem c m)
    simp [pySplitComma, hc, ih ht b]

theorem space_cons_joinCommaSpace (y : List Char) (ys : List (List Char)) :
    ' ' :: joinCommaSpace (y :: ys) = joinCommaSpace ((' ' :: y) :: ys) := by
  cases ys with
  | nil => rfl
  | cons z zs => rfl

theorem pySplitComma_joinCommaSpace :
    ∀ (xs : List (List Char)) (x : List Char), ',' ∉ x → (∀ y ∈ xs, ',' ∉ y) →
      pySplitComma (joinCommaSpace (x :: xs)) = x :: xs.map (fun y => ' ' :: y) := by
  intro xs
  induction xs with
  | nil => intro x hx _; simp [joinCommaSpace, pySplitComma_of_no_comma x hx]
  | cons y ys ih =>
    intro x hx hall
    have h1 : joinCommaSpace (x :: y :: ys) = x ++ ',' :: ' ' :: joinCommaSpace (y :: ys) := rfl
    rw [h1, space_cons_joinCommaSpace, pySplitComma_append x hx]
    have hy : ',' ∉ ' ' :: y := by
      intro hm
      rcases List.mem_cons.mp hm with he | hm0
      · exact absurd he (by decide)
      · exact hall y (List.mem_cons_self y ys) hm0
    rw [ih (' ' :: y) hy (fun z hz => hall z (List.mem_cons_of_mem y hz))]
    simp

theorem pyStrip_space_cons (s : List Char) : pyStrip (' ' :: s) = pyStrip s := by
  have h : List.dropWhile pyIsSpace (' ' :: s) = List.dropWhile pyIsSpace s := by
    rw [List.dropWhile_cons]
    simp [pyIsSpace]
  simp [pyStrip, h]

theorem mem_get_aircraft_list_comma_free (p : Pilot) :
    ∀ y ∈ p.get_aircraft_list, ',' ∉ y := by
  intro y hy
  unfold Pilot.get_aircraft_list at hy
  by_cases hN : p.aircraft_owned ≠ []
  · rw [if_pos hN] at hy
    have hy2 := (List.mem_filter.mp hy).1
    obtain ⟨g, hg, rfl⟩ := List.mem_map.mp hy2
    intro hmem
    exact pySplitComma_no_comma p.aircraft_owned g hg (mem_pyStrip hmem)
  · rw [if_neg hN] at hy
    exact absurd hy (List.not_mem_nil y)

theorem joinCommaSpace_two_ne_nil (x y : List Char) (ys : List (List Char)) :
    joinCommaSpace (x :: y :: ys) ≠ [] := by
  have h1 : joinCommaSpace (x :: y :: ys) = x ++ ',' :: ' ' :: joinCommaSpace (y :: ys) := rfl
  rw [h1]
  simp

theorem add_aircraft_of_mem {p : Pilot} {aid : List Char}
    (h : aid ∈ p.get_aircraft_list) : p.add_aircraft aid = p := by
  simp [Pilot.add_aircraft, h]

theorem add_aircraft_balance (p : Pilot) (aid : List Char) :
    (p.add_aircraft aid).balance = p.balance := by
  by_cases h : aid ∈ p.get_aircraft_list
  · rw [add_aircraft_of_mem h]
  · simp [Pilot.add_aircraft, h]

theorem mem_add_aircraft (p : Pilot) (aid : List Char)
    (h1 : aid ≠ []) (h2 : ',' ∉ aid) (h3 : pyStrip aid = aid) :
    aid ∈ (p.add_aircraft aid).get_aircraft_list := by
  by_cases hmem : aid ∈ p.get_aircraft_list
  · rw [add_aircraft_of_mem hmem]; exact hmem
  · have hstep : (p.add_aircraft aid).aircraft_owned =
        joinCommaSpace (p.get_aircraft_list ++ [aid]) := by
      simp [Pilot.add_aircraft, hmem]
    cases hc : p.get_aircraft_list with
    | nil =>
      have howned : (p.add_aircraft aid).aircraft_owned = aid := by
        rw [hstep, hc]; rfl
      unfold Pilot.get_aircraft_list
      rw [howned]
      simp [h1, pySplitComma_of_no_comma aid h2, h3]
    | cons c cs =>
      have hcall : ',' ∉ c :=
        mem_get_aircraft_list_comma_free p c (by rw [hc]; exact List.mem_cons_self c cs)
      have hall : ∀ y ∈ cs ++ [aid], ',' ∉ y := by
        intro y hy
        rcases List.mem_append.mp hy with hy0 | hy1
        · exact mem_get_aircraft_list_comma_free p y
            (by rw [hc]; exact List.mem_cons_of_mem c hy0)
        · rw [List.mem_singleton.mp hy1]; exact h2
      have howned : (p.add_aircraft aid).aircraft_owned =
          joinCommaSpace (c :: (cs ++ [aid])) := by
        rw [hstep, hc]; rfl
      have hsplit := pySplitComma_joinCommaSpace (cs ++ [aid]) c hcall hall
      have hne : joinCommaSpace (c :: (cs ++ [aid])) ≠ [] := by
        cases cs with
        | nil => exact joinCommaSpace_two_ne_nil c aid []
        | cons z zs => exact joinCommaSpace_two_ne_nil c z (zs ++ [aid])
      unfold Pilot.get_aircraft_list
      rw [howned]
      simp only [hne, ne_eq, not_false_eq_true, if_true, hsplit]
      apply List.mem_filter.mpr
      constructor
      · apply List.mem_map.mpr
        refine ⟨' ' :: aid, ?_, by rw [pyStrip_space_cons, h3]⟩
        apply List.mem_cons_of_mem
        apply List.mem_map.mpr
        exact ⟨aid, List.mem_append_right cs (List.mem_singleton.mpr rfl), rfl⟩
      · simpa using h1

theorem shop_items_wf :
    ∀ it ∈ SHOP_ITEMS, it.id ≠ [] ∧ ',' ∉ it.id ∧ pyStrip it.id = it.id := by
  decide

/-! ## Step-level characterizations -/

theorem step_pause_ok {db : DB} {sp lid : Nat} {l : FlightLog}
    (hl : db.getLog lid = some l) (hown : l.pilot_id = sp) :
    step db (OpCall.pause sp lid) = db.setLog { l with status := "Paused" } := by
  simp [step, pause_flight_ok hl hown]

theorem step_resume_ok {db : DB} {sp lid : Nat} {l : FlightLog}
    (hl : db.getLog lid = some l) (hown : l.pilot_id = sp) :
    step db (OpCall.resume sp lid) = db.setLog { l with status := "In Progress" } := by
  simp [step, resume_flight_ok hl hown]

theorem step_endF_ok {db : DB} {sp lid : Nat} {l : FlightLog} {p : Pilot}
    {d : Int} {now : Nat}
    (hl : db.getLog lid = some l) (hp : db.getPilot sp = some p)
    (hown : l.pilot_id = p.id) :
    step db (OpCall.endF sp lid d now) =
      (db.setLog
          { l with status := "Completed", flight_duration := d,
                   completed_at := some now }).setPilot
        { p with hours := p.hours + d.tdiv 3600,
                 completed_flights := p.completed_flights + 1,
                 cargo_delivered := p.cargo_delivered + 50,
                 balance := p.balance + 50 } := by
  simp [step, end_flight_ok hl hp hown]

/-! ## Preservation of the completed-at invariant (claim C2) -/

theorem completedInv_setLog {db : DB} {l' : FlightLog} (hinv : CompletedInv db)
    (hl' : l'.completed_at ≠ none ↔ l'.status = "Completed") :
    CompletedInv (db.setLog l') := by
  intro m hm
  simp only [DB.setLog] at hm
  obtain ⟨m0, hm0, rfl⟩ := List.mem_map.mp hm
  by_cases h : m0.id = l'.id
  · rw [if_pos h]; exact hl'
  · rw [if_neg h]; exact hinv m0 hm0

theorem completedInv_step {db : DB} {op : OpCall}
    (hinv : CompletedInv db) (hop : safeOp db op = true) :
    CompletedInv (step db op) := by
  cases op with
  | create pid fn at_ dep arr cargo dt nid now =>
    simp only [step, add_flight_log]
    by_cases hv : ¬("GTI_".toList.isPrefixOf fn) = true ∨ fn.length < 5
    · rw [if_pos hv]; exact hinv
    · rw [if_neg hv]
      intro m hm
      rcases List.mem_append.mp hm with h0 | h1
      · exact hinv m h0
      · rw [List.mem_singleton.mp h1]
        simp
  | pause sp lid =>
    cases hlog : db.getLog lid with
    | none => simpa [step, pause_flight, hlog] using hinv
    | some l =>
      by_cases hown : l.pilot_id = sp
      · have hst : l.status ≠ "Completed" := by
          have h := hop
          simp [safeOp, hlog] at h
          exact h
        have hca : l.completed_at = none := by
          by_contra hne
          exact hst ((hinv l (mem_of_getLog hlog)).mp hne)
        rw [step_pause_ok hlog hown]
        exact completedInv_setLog hinv (by simp [hca])
      · simpa [step, pause_flight, hlog, hown] using hinv
  | resume sp lid =>
    cases hlog : db.getLog lid with
    | none => simpa [step, resume_flight, hlog] using hinv
    | some l =>
      by_cases hown : l.pilot_id = sp
      · have hst : l.status ≠ "Completed" := by
          have h := hop
          simp [safeOp, hlog] at h
          exact h
        have hca : l.completed_at = none := by
          by_contra hne
          exact hst ((hinv l (mem_of_getLog hlog)).mp hne)
        rw [step_resume_ok hlog hown]
        exact completedInv_setLog hinv (by simp [hca])
      · simpa [step, resume_flight, hlog, hown] using hinv
  | endF sp lid d now =>
    cases hlog : db.getLog lid with
    | none => simpa [step, end_flight, hlog] using hinv
    | some l =>
      cases hpil : db.getPilot sp with
      | none => simpa [step, end_flight, hlog, hpil] using hinv
      | some p =>
        by_cases hown : l.pilot_id = p.id
        · rw [step_endF_ok hlog hpil hown]
          intro m hm
          rw [logs_setPilot] at hm
          exact completedInv_setLog hinv (by simp) m hm
        · simpa [step, end_flight, hlog, hpil, hown] using hinv

theorem completedInv_run {db : DB} {ops : List OpCall}
    (hinv : CompletedInv db) (hops : safeOps db ops = true) :
    CompletedInv (run db ops) := by
  induction ops generalizing db with
  | nil => exact hinv
  | cons op rest ih =>
    have h := hops
    simp only [safeOps, Bool.and_eq_true] at h
    exact ih (completedInv_step hinv h.1) h.2

/-! ## Preservation of the flight-number format invariant (claim C5) -/

theorem flightNumInv_setLog {db : DB} {lid : Nat} {l l' : FlightLog}
    (hinv : FlightNumInv db) (hl : db.getLog lid = some l)
    (hfn : l'.flight_number = l.flight_number) :
    FlightNumInv (db.setLog l') := by
  intro m hm
  simp only [DB.setLog] at hm
  obtain ⟨m0, hm0, rfl⟩ := List.mem_map.mp hm
  by_cases h : m0.id = l'.id
  · rw [if_pos h, hfn]
    exact hinv l (mem_of_getLog hl)
  · rw [if_neg h]; exact hinv m0 hm0

theorem flightNumInv_step {db : DB} (op : OpCall)
    (hinv : FlightNumInv db) : FlightNumInv (step db op) := by
  cases op with
  | create pid fn at_ dep arr cargo dt nid now =>
    simp only [step, add_flight_log]
    by_cases hv : ¬("GTI_".toList.isPrefixOf fn) = true ∨ fn.length < 5
    · rw [if_pos hv]; exact hinv
    · rw [if_neg hv]
      push_neg at hv
      intro m hm
      rcases List.mem_append.mp hm with h0 | h1
      · exact hinv m h0
      · rw [List.mem_singleton.mp h1]
        exact ⟨by simpa using hv.1, hv.2⟩
  | pause sp lid =>
    cases hlog : db.getLog lid with
    | none => simpa [step, pause_flight, hlog] using hinv
    | some l =>
      by_cases hown : l.pilot_id = sp
      · rw [step_pause_ok hlog hown]
        exact flightNumInv_setLog hinv hlog rfl
      · simpa [step, pause_flight, hlog, hown] using hinv
  | resume sp lid =>
    cases hlog : db.getLog lid with
    | none => simpa [step, resume_flight, hlog] using hinv
    | some l =>
      by_cases hown : l.pilot_id = sp
      · rw [step_resume_ok hlog hown]
        exact flightNumInv_setLog hinv hlog rfl
      · simpa [step, resume_flight, hlog, hown] using hinv
  | endF sp lid d now =>
    cases hlog : db.getLog lid with
    | none => simpa [step, end_flight, hlog] using hinv
    | some l =>
      cases hpil : db.getPilot sp with
      | none => simpa [step, end_flight, hlog, hpil] using hinv
      | some p =>
        by_cases hown : l.pilot_id = p.id
        · rw [step_endF_ok hlog hpil hown]
          intro m hm
          rw [logs_setPilot] at hm
          refine flightNumInv_setLog hinv hlog ?_ m hm
          rfl
        · simpa [step, end_flight, hlog, hpil, hown] using hinv

theorem flightNumInv_run {db : DB} (ops : List OpCall)
    (hinv : FlightNumInv db) : FlightNumInv (run db ops) := by
  induction ops generalizing db with
  | nil => exact hinv
  | cons op rest ih => exact ih (flightNumInv_step op hinv)

/-! ## Ledger monotonicity machinery (claim C8) -/

theorem pilotLE_refl (p : Pilot) : PilotLE p p :=
  ⟨le_refl _, le_refl _, le_refl _⟩

theorem pilotLE_trans {p q r : Pilot} (h1 : PilotLE p q) (h2 : PilotLE q r) :
    PilotLE p r :=
  ⟨le_trans h1.1 h2.1, le_trans h1.2.1 h2.2.1, le_trans h1.2.2 h2.2.2⟩

theorem monotone_step_endF {db : DB} {sp lid : Nat} {d : Int} {now : Nat}
    (hd : 0 ≤ d) (pid : Nat) (p : Pilot) (hp : db.getPilot pid = some p) :
    ∃ p', (step db (OpCall.endF sp lid d now)).getPilot pid = some p' ∧
      PilotLE p p' := by
  cases hlog : db.getLog lid with
  | none => exact ⟨p, by simpa [step, end_flight, hlog] using hp, pilotLE_refl p⟩
  | some l =>
    cases hpil : db.getPilot sp with
    | none => exact ⟨p, by simpa [step, end_flight, hlog, hpil] using hp, pilotLE_refl p⟩
    | some q =>
      by_cases hq : l.pilot_id = q.id
      · rw [step_endF_ok hlog hpil hq]
        by_cases hid : p.id = q.id
        · have hps : pid = sp := by
            rw [← getPilot_eq_id hp, hid, getPilot_eq_id hpil]
          subst hps
          have hpq : p = q := by
            rw [hp] at hpil
            exact Option.some.inj hpil
          subst hpq
          refine ⟨{ p with hours := p.hours + d.tdiv 3600,
                           completed_flights := p.completed_flights + 1,
                           cargo_delivered := p.cargo_delivered + 50,
                           balance := p.balance + 50 }, ?_, ?_, ?_, ?_⟩
          · rw [getPilot_setPilot, getPilot_setLog, hp]
            simp
          · exact le_add_of_nonneg_right (Int.tdiv_nonneg hd (by norm_num))
          · exact le_add_of_nonneg_right (by norm_num)
          · exact le_add_of_nonneg_right (by norm_num)
        · refine ⟨p, ?_, pilotLE_refl p⟩
          rw [getPilot_setPilot, getPilot_setLog, hp]
          simp [hid]
      · exact ⟨p, by simpa [step, end_flight, hlog, hpil, hq] using hp, pilotLE_refl p⟩

/-! ## Claim theorems -/

/-- C1: every authorized `end(log, elapsed_seconds)` call credits the owning
pilot with `hours_delta = floor(elapsed_seconds / 3600)`, `cargo_delta = 50`,
`money_delta = 50`, `completed_flights_delta = 1`, and sets the log to
Completed with `flight_duration = elapsed_seconds`; elapsed stopwatch time
is nonnegative. -/
theorem end_flight_reward_correct (db : DB) (sp lid : Nat) (l : FlightLog)
    (p : Pilot) (d : Int) (now : Nat)
    (hl : db.getLog lid = some l) (hp : db.getPilot sp = some p)
    (hown : l.pilot_id = p.id) (hd : 0 ≤ d) :
    ∃ db', end_flight db sp lid d now = .ok (db', ⟨d.fdiv 3600, 50, 50⟩) ∧
      db'.getLog lid =
        some { l with status := "Completed", flight_duration := d,
                      completed_at := some now } ∧
      db'.getPilot sp =
        some { p with hours := p.hours + d.fdiv 3600,
                      completed_flights := p.completed_flights + 1,
                      cargo_delivered := p.cargo_delivered + 50,
                      balance := p.balance + 50 } := by
  have htf : d.tdiv 3600 = d.fdiv 3600 := by
    rw [Int.tdiv_eq_ediv hd (by norm_num), Int.fdiv_eq_ediv _ (by norm_num)]
  refine ⟨(db.setLog
      { l with status := "Completed", flight_duration := d,
               completed_at := some now }).setPilot
      { p with hours := p.hours + d.fdiv 3600,
               completed_flights := p.completed_flights + 1,
               cargo_delivered := p.cargo_delivered + 50,
               balance := p.balance + 50 }, ?_, ?_, ?_⟩
  · rw [end_flight_ok hl hp hown, htf]
  · rw [getLog_setPilot, getLog_setLog_self hl (by rfl)]
  · rw [getPilot_setPilot, getPilot_setLog, hp]
    simp

/-- Witness for C1: at the sample database, ending the flight after 3600 s
credits exactly 1 hour, and after 5399 s (just under 1.5 h) also 1 hour. -/
theorem end_flight_reward_correct_witness :
    (∃ db', end_flight db1 1 1 3600 10 = .ok (db', ⟨1, 50, 50⟩)) ∧
    (∃ db', end_flight db1 1 1 5399 11 = .ok (db', ⟨1, 50, 50⟩)) := by
  constructor
  · obtain ⟨db', h, -, -⟩ :=
      end_flight_reward_correct db1 1 1 logGTI42 samplePilot 3600 10
        (by decide) (by decide) (by decide) (by decide)
    have hr : (⟨Int.fdiv 3600 3600, 50, 50⟩ : EndResponse) = ⟨1, 50, 50⟩ := by decide
    exact ⟨db', by rw [h, hr]⟩
  · obtain ⟨db', h, -, -⟩ :=
      end_flight_reward_correct db1 1 1 logGTI42 samplePilot 5399 11
        (by decide) (by decide) (by decide) (by decide)
    have hr : (⟨Int.fdiv 5399 3600, 50, 50⟩ : EndResponse) = ⟨1, 50, 50⟩ := by decide
    exact ⟨db', by rw [h, hr]⟩

/-- C2 counterexample: the trace create–end–pause reaches a state whose log
has `completed_at` set while its status is Paused, so the claimed invariant
fails on reachable states (pause does not guard the Completed state). -/
theorem completed_at_invariant_breaks :
    ¬ (∀ l ∈ (run db0 [OpCall.create 1 ("GTI_42".toList) "747-8F" "KJFK" "EGLL"
            "General Freight" 5 1 6,
          OpCall.endF 1 1 3600 10, OpCall.pause 1 1]).logs,
        (l.completed_at ≠ none ↔ l.status = "Completed")) := by
  decide

/-- C2 (amended): `completed_at` is non-null iff status = Completed holds in
every state reachable by create/pause/resume/end, provided pause and resume
are never aimed at a log that is already Completed. -/
theorem completed_at_iff_completed (db : DB) (ops : List OpCall)
    (hinv : CompletedInv db) (hops : safeOps db ops = true) :
    CompletedInv (run db ops) :=
  completedInv_run hinv hops

/-- Witness for amended C2: a full create–pause–resume–end trace from the
fresh database keeps the invariant. -/
theorem completed_at_iff_completed_witness :
    CompletedInv (run db0 [OpCall.create 1 ("GTI_42".toList) "747-8F" "KJFK"
        "EGLL" "General Freight" 5 1 6,
      OpCall.pause 1 1, OpCall.resume 1 1, OpCall.endF 1 1 3600 10]) :=
  completed_at_iff_completed db0 _
    (fun l hl => absurd hl (List.not_mem_nil l)) (by decide)

/-- C3 counterexample: pausing a Completed log moves it to Paused, so
Completed is not terminal. -/
theorem completed_terminal_breaks :
    dbC.getLog 1 = some completedLog ∧ completedLog.status = "Completed" ∧
    ((step dbC (OpCall.pause 1 1)).getLog 1).map FlightLog.status =
      some "Paused" := by
  decide

/-- C3 (amended): Completed is not terminal: an authorized pause moves a
Completed log to Paused and an authorized resume to In Progress; only end
leaves its status at Completed. -/
theorem completed_not_terminal (db : DB) (sp lid : Nat) (l : FlightLog)
    (hl : db.getLog lid = some l) (hc : l.status = "Completed")
    (hown : l.pilot_id = sp) :
    ((step db (OpCall.pause sp lid)).getLog lid).map FlightLog.status =
      some "Paused" ∧
    ((step db (OpCall.resume sp lid)).getLog lid).map FlightLog.status =
      some "In Progress" ∧
    (∀ p d now, db.getPilot sp = some p →
      ((step db (OpCall.endF sp lid d now)).getLog lid).map FlightLog.status =
        some "Completed") := by
  refine ⟨?_, ?_, ?_⟩
  · rw [step_pause_ok hl hown, getLog_setLog_self hl (by rfl)]
    rfl
  · rw [step_resume_ok hl hown, getLog_setLog_self hl (by rfl)]
    rfl
  · intro p d now hp
    have hown2 : l.pilot_id = p.id := by rw [hown, getPilot_eq_id hp]
    rw [step_endF_ok hl hp hown2, getLog_setPilot, getLog_setLog_self hl (by rfl)]
    rfl

/-- Witness for amended C3 on a concrete Completed log. -/
theorem completed_not_terminal_witness :
    ((step dbC (OpCall.pause 1 1)).getLog 1).map FlightLog.status =
      some "Paused" ∧
    ((step dbC (OpCall.resume 1 1)).getLog 1).map FlightLog.status =
      some "In Progress" ∧
    ((step dbC (OpCall.endF 1 1 3600 12)).getLog 1).map FlightLog.status =
      some "Completed" := by
  obtain ⟨h1, h2, h3⟩ :=
    completed_not_terminal dbC 1 1 completedLog (by decide) (by decide) (by decide)
  exact ⟨h1, h2, h3 samplePilot 3600 12 (by decide)⟩

theorem end_once {db : DB} {sp lid : Nat} {l : FlightLog} {p : Pilot}
    (d : Int) (now : Nat)
    (hl : db.getLog lid = some l) (hp : db.getPilot sp = some p)
    (hown : l.pilot_id = p.id) :
    (step db (OpCall.endF sp lid d now)).getLog lid =
      some { l with status := "Completed", flight_duration := d,
                    completed_at := some now } ∧
    (step db (OpCall.endF sp lid d now)).getPilot sp =
      some { p with hours := p.hours + d.tdiv 3600,
                    completed_flights := p.completed_flights + 1,
                    cargo_delivered := p.cargo_delivered + 50,
                    balance := p.balance + 50 } := by
  rw [step_endF_ok hl hp hown]
  constructor
  · rw [getLog_setPilot, getLog_setLog_self hl (by rfl)]
  · rw [getPilot_setPilot, getPilot_setLog, hp]
    simp

/-- C4: `end` is not idempotent: two `end` calls on the same log apply the
ledger reward twice, leaving the pilot's completed_flights up by 2 and
cargo_delivered and balance up by 100 each, relative to before the first
call. -/
theorem end_flight_double_credit (db : DB) (sp lid : Nat) (l : FlightLog)
    (p : Pilot) (d : Int) (now now' : Nat)
    (hl : db.getLog lid = some l) (hp : db.getPilot sp = some p)
    (hown : l.pilot_id = p.id) :
    ∃ p', (run db [OpCall.endF sp lid d now, OpCall.endF sp lid d now']).getPilot sp
        = some p' ∧
      p'.completed_flights = p.completed_flights + 2 ∧
      p'.cargo_delivered = p.cargo_delivered + 100 ∧
      p'.balance = p.balance + 100 := by
  obtain ⟨hl1, hp1⟩ := end_once d now hl hp hown
  obtain ⟨hl2, hp2⟩ := end_once d now' hl1 hp1 hown
  refine ⟨_, hp2, ?_, ?_, ?_⟩
  · show p.completed_flights + 1 + 1 = p.completed_flights + 2
    omega
  · show p.cargo_delivered + 50 + 50 = p.cargo_delivered + 100
    omega
  · show p.balance + 50 + 50 = p.balance + 100
    omega

/-- Witness for C4: ending the sample flight twice leaves the sample pilot
with 2 completed flights, 100 tons of cargo and a balance of 45100. -/
theorem end_flight_double_credit_witness :
    ∃ p', (run db1 [OpCall.endF 1 1 3600 10, OpCall.endF 1 1 3600 11]).getPilot 1
        = some p' ∧
      p'.completed_flights = 2 ∧ p'.cargo_delivered = 100 ∧
      p'.balance = 45100 := by
  obtain ⟨p', h1, h2, h3, h4⟩ :=
    end_flight_double_credit db1 1 1 logGTI42 samplePilot 3600 10 11
      (by decide) (by decide) (by decide)
  refine ⟨p', h1, ?_, ?_, ?_⟩
  · rw [h2]; decide
  · rw [h3]; decide
  · rw [h4]; decide

/-- C5 counterexample: `'GTI_A'` is accepted and stored although it is not
`GTI_` followed by digits — the validation only checks the prefix and a
minimum length, so the accepts-iff-digits claim fails. -/
theorem flight_number_digits_breaks :
    ((step db0 (OpCall.create 1 ("GTI_A".toList) "747-8F" "KJFK" "EGLL"
          "General Freight" 5 1 6)).getLog 1).map FlightLog.flight_number =
      some ("GTI_A".toList) ∧
    specFlightNumberOk ("GTI_A".toList) = false := by
  decide

/-- C5 (amended): flight-log creation accepts `flight_number` iff it starts
with `GTI_` and has length at least 5 (at least one character after the
prefix, not necessarily a digit); a rejected request creates nothing, a
successful one appends exactly one In Progress log carrying the given
number, and that shape is invariant under all four public operations. -/
theorem flight_number_validation :
    (∀ (db : DB) (pid : Nat) (fn : List Char)
        (at_ dep arr cargo : String) (dt nid now : Nat),
      ((∃ r, add_flight_log db pid fn at_ dep arr cargo dt nid now = .ok r) ↔
        ("GTI_".toList.isPrefixOf fn = true ∧ 5 ≤ fn.length)) ∧
      (¬ ("GTI_".toList.isPrefixOf fn = true ∧ 5 ≤ fn.length) →
        add_flight_log db pid fn at_ dep arr cargo dt nid now =
          .error .invalidInput ∧
        step db (OpCall.create pid fn at_ dep arr cargo dt nid now) = db) ∧
      (∀ db' nid',
        add_flight_log db pid fn at_ dep arr cargo dt nid now = .ok (db', nid') →
        ∃ nl, db'.logs = db.logs ++ [nl] ∧ nl.flight_number = fn ∧
          nl.status = "In Progress")) ∧
    (∀ (db : DB) (ops : List OpCall),
      FlightNumInv db → FlightNumInv (run db ops)) := by
  refine ⟨?_, fun db ops h => flightNumInv_run ops h⟩
  intro db pid fn at_ dep arr cargo dt nid now
  by_cases hv : ¬ ("GTI_".toList.isPrefixOf fn) = true ∨ fn.length < 5
  · have herr : add_flight_log db pid fn at_ dep arr cargo dt nid now =
        .error .invalidInput := by
      simp only [add_flight_log]
      rw [if_pos hv]
    refine ⟨?_, ?_, ?_⟩
    · constructor
      · rintro ⟨r, hr⟩
        rw [herr] at hr
        exact absurd hr (by simp)
      · rintro ⟨hA, hB⟩
        rcases hv with h | h
        · exact absurd hA h
        · omega
    · intro _
      exact ⟨herr, by simp [step, herr]⟩
    · intro db' nid' hok
      rw [herr] at hok
      exact absurd hok (by simp)
  · push_neg at hv
    obtain ⟨hA, hB⟩ := hv
    have hok : add_flight_log db pid fn at_ dep arr cargo dt nid now =
        .ok ({ db with logs := db.logs ++
          [{ id := nid, pilot_id := pid, flight_number := fn,
             aircraft_type := at_, departure_airport := dep.toUpper,
             arrival_airport := arr.toUpper, cargo_type := cargo,
             departure_time := dt, flight_duration := 0,
             status := "In Progress", created_at := now,
             completed_at := none }] }, nid) := by
      simp only [add_flight_log]
      rw [if_neg (by push_neg; exact ⟨hA, hB⟩)]
    refine ⟨?_, ?_, ?_⟩
    · exact ⟨fun _ => ⟨hA, hB⟩, fun _ => ⟨_, hok⟩⟩
    · intro hcontra
      exact absurd ⟨hA, hB⟩ hcontra
    · intro db' nid' hok'
      rw [hok] at hok'
      simp only [Except.ok.injEq, Prod.mk.injEq] at hok'
      rw [← hok'.1]
      exact ⟨_, rfl, rfl, rfl⟩

/-- Witness for amended C5: `'GTI_42'` is accepted, `'ABC_1'` is rejected
with InvalidInput, and the fresh database keeps the format invariant after
a successful creation. -/
theorem flight_number_validation_witness :
    (∃ r, add_flight_log db0 1 ("GTI_42".toList) "747-8F" "KJFK" "EGLL"
        "General Freight" 5 1 6 = .ok r) ∧
    add_flight_log db0 1 ("ABC_1".toList) "747-8F" "KJFK" "EGLL"
        "General Freight" 5 1 6 = .error .invalidInput ∧
    FlightNumInv (run db0 [OpCall.create 1 ("GTI_42".toList) "747-8F" "KJFK"
        "EGLL" "General Freight" 5 1 6]) := by
  obtain ⟨hgen, hinv⟩ := flight_number_validation
  refine ⟨?_, ?_, ?_⟩
  · exact ((hgen db0 1 ("GTI_42".toList) "747-8F" "KJFK" "EGLL"
      "General Freight" 5 1 6).1).mpr (by decide)
  · exact ((hgen db0 1 ("ABC_1".toList) "747-8F" "KJFK" "EGLL"
      "General Freight" 5 1 6).2.1 (by decide)).1
  · exact hinv db0 _ (fun l hl => absurd hl (List.not_mem_nil l))

/-- C6: `purchase(pilot, item_id)` fails with NotFound when the id is not in
the catalog, AlreadyOwned when it is already in the owned set, and
InsufficientFunds exactly when `balance < price` (so balance = price
succeeds and leaves balance 0); failures leave the pilot untouched, and on
success the balance drops by exactly the price and the id joins the owned
set. -/
theorem purchase_correct (p : Pilot) (item_id : List Char) :
    (SHOP_ITEMS.find? (fun it => it.id = item_id) = none →
      purchase p item_id = .error .notFound ∧ purchase_commit p item_id = p) ∧
    (∀ item, SHOP_ITEMS.find? (fun it => it.id = item_id) = some item →
      (item_id ∈ p.get_aircraft_list →
        purchase p item_id = .error .alreadyOwned ∧
        purchase_commit p item_id = p) ∧
      (item_id ∉ p.get_aircraft_list → p.balance < item.price →
        purchase p item_id = .error .insufficientFunds ∧
        purchase_commit p item_id = p) ∧
      (item_id ∉ p.get_aircraft_list → item.price ≤ p.balance →
        ∃ p', purchase p item_id = .ok p' ∧ purchase_commit p item_id = p' ∧
          p'.balance = p.balance - item.price ∧
          item_id ∈ p'.get_aircraft_list ∧
          (p.balance = item.price → p'.balance = 0))) := by
  constructor
  · intro h
    have he : purchase p item_id = .error .notFound := by simp [purchase, h]
    exact ⟨he, by simp [purchase_commit, he]⟩
  · intro item hit
    refine ⟨?_, ?_, ?_⟩
    · intro hmem
      have he : purchase p item_id = .error .alreadyOwned := by
        simp [purchase, hit, hmem]
      exact ⟨he, by simp [purchase_commit, he]⟩
    · intro hmem hlt
      have he : purchase p item_id = .error .insufficientFunds := by
        simp [purchase, hit, hmem, hlt]
      exact ⟨he, by simp [purchase_commit, he]⟩
    · intro hmem hge
      have hnlt : ¬ p.balance < item.price := not_lt.mpr hge
      have hok : purchase p item_id =
          .ok (({ p with balance := p.balance - item.price }).add_aircraft item_id) := by
        simp [purchase, hit, hmem, hnlt]
      have hid : item.id = item_id := by
        have := List.find?_some hit
        exact of_decide_eq_true this
      obtain ⟨w1, w2, w3⟩ := shop_items_wf item (List.mem_of_find?_eq_some hit)
      have hbal : (({ p with balance := p.balance - item.price }).add_aircraft
          item_id).balance = p.balance - item.price :=
        add_aircraft_balance _ _
      refine ⟨_, hok, by simp [purchase_commit, hok], hbal, ?_, ?_⟩
      · exact mem_add_aircraft _ item_id (hid ▸ w1) (hid ▸ w2) (hid ▸ w3)
      · intro heq
        rw [hbal, heq]
        omega

/-- Witness for C6: the sample pilot hits all four branches — an unknown id,
an already-owned aircraft, an item above a reduced balance, and a purchase
at exactly the wallet balance, which leaves the balance at 0. -/
theorem purchase_correct_witness :
    purchase samplePilot ("warp_drive".toList) = .error .notFound ∧
    purchase samplePilot ("boeing_767".toList) = .error .alreadyOwned ∧
    purchase { samplePilot with balance := 100 } ("boeing_747".toList) =
      .error .insufficientFunds ∧
    (∃ p', purchase samplePilot ("boeing_747".toList) = .ok p' ∧
      p'.balance = 0 ∧ "boeing_747".toList ∈ p'.get_aircraft_list) := by
  refine ⟨?_, ?_, ?_, ?_⟩
  · exact ((purchase_correct samplePilot ("warp_drive".toList)).1 (by decide)).1
  · exact (((purchase_correct samplePilot ("boeing_767".toList)).2
      ⟨"boeing_767".toList, "Boeing 767-300F", 25000⟩ (by decide)).1 (by decide)).1
  · exact (((purchase_correct { samplePilot with balance := 100 }
      ("boeing_747".toList)).2
      ⟨"boeing_747".toList, "Boeing 747-8F", 45000⟩ (by decide)).2.1
      (by decide) (by decide)).1
  · obtain ⟨p', hok, -, hbal, hmem, hzero⟩ :=
      ((purchase_correct samplePilot ("boeing_747".toList)).2
        ⟨"boeing_747".toList, "Boeing 747-8F", 45000⟩ (by decide)).2.2
        (by decide) (by decide)
    exact ⟨p', hok, hzero (by decide), hmem⟩

/-- C7: pause, resume and end on a log owned by a different pilot than the
acting session fail with the 401 Unauthorized error and leave the whole
database — the flight log and every pilot record — unchanged. -/
theorem ops_unauthorized_no_mutation (db : DB) (sp lid : Nat) (l : FlightLog)
    (hl : db.getLog lid = some l) (hown : l.pilot_id ≠ sp) :
    (pause_flight db sp lid = .error .unauthorized ∧
      step db (OpCall.pause sp lid) = db) ∧
    (resume_flight db sp lid = .error .unauthorized ∧
      step db (OpCall.resume sp lid) = db) ∧
    (∀ p d now, db.getPilot sp = some p →
      end_flight db sp lid d now = .error .unauthorized ∧
      step db (OpCall.endF sp lid d now) = db) := by
  refine ⟨⟨?_, ?_⟩, ⟨?_, ?_⟩, ?_⟩
  · simp [pause_flight, hl, hown]
  · simp [step, pause_flight, hl, hown]
  · simp [resume_flight, hl, hown]
  · simp [step, resume_flight, hl, hown]
  · intro p d now hp
    have hne : l.pilot_id ≠ p.id := by
      rw [getPilot_eq_id hp]
      exact hown
    exact ⟨by simp [end_flight, hl, hp, hne], by simp [step, end_flight, hl, hp, hne]⟩

/-- Witness for C7: pilot 2's session cannot pause, resume or end pilot 1's
log, and the database is untouched. -/
theorem ops_unauthorized_no_mutation_witness :
    pause_flight db2p 2 1 = .error .unauthorized ∧
    resume_flight db2p 2 1 = .error .unauthorized ∧
    end_flight db2p 2 1 3600 10 = .error .unauthorized ∧
    step db2p (OpCall.endF 2 1 3600 10) = db2p := by
  obtain ⟨⟨h1, -⟩, ⟨h2, -⟩, h3⟩ :=
    ops_unauthorized_no_mutation db2p 2 1 logGTI42 (by decide) (by decide)
  obtain ⟨h4, h5⟩ := h3 pilot2 3600 10 (by decide)
  exact ⟨h1, h2, h4, h5⟩

/-- C8 counterexample: a single `end` call with the client-supplied duration
-3600 lowers the pilot's hours from 5 to 4, so the hours statistic is not
monotonically non-decreasing over arbitrary client durations. -/
theorem ledger_monotone_breaks :
    (dbH.getPilot 1).map Pilot.hours = some 5 ∧
    ((run dbH [OpCall.endF 1 1 (-3600) 9]).getPilot 1).map Pilot.hours =
      some 4 := by
  decide

/-- C8 (amended): over any sequence of flight-completion (`end`) calls whose
client-supplied durations are nonnegative, every pilot's hours,
cargo_delivered and completed_flights are monotonically non-decreasing. -/
theorem ledger_monotone_nonneg_end :
    ∀ (ops : List OpCall) (db : DB) (pid : Nat) (p : Pilot),
      (∀ op ∈ ops, nonnegEndOp op) → db.getPilot pid = some p →
      ∃ p', (run db ops).getPilot pid = some p' ∧
        p.hours ≤ p'.hours ∧ p.cargo_delivered ≤ p'.cargo_delivered ∧
        p.completed_flights ≤ p'.completed_flights := by
  intro ops
  induction ops with
  | nil =>
    intro db pid p _ hp
    exact ⟨p, hp, le_refl _, le_refl _, le_refl _⟩
  | cons op rest ih =>
    intro db pid p hops hp
    cases op with
    | create pid' fn at_ dep arr cargo dt nid now =>
      exact absurd (hops _ (List.mem_cons_self _ rest)) (by simp [nonnegEndOp])
    | pause sp lid =>
      exact absurd (hops _ (List.mem_cons_self _ rest)) (by simp [nonnegEndOp])
    | resume sp lid =>
      exact absurd (hops _ (List.mem_cons_self _ rest)) (by simp [nonnegEndOp])
    | endF sp lid d now =>
      have hd : 0 ≤ d := hops _ (List.mem_cons_self _ rest)
      obtain ⟨p1, hp1, hle1⟩ := monotone_step_endF hd pid p hp
      obtain ⟨p', hp', h1, h2, h3⟩ :=
        ih (step db (OpCall.endF sp lid d now)) pid p1
          (fun o ho => hops o (List.mem_cons_of_mem _ ho)) hp1
      exact ⟨p', hp', le_trans hle1.1 h1, le_trans hle1.2.1 h2,
        le_trans hle1.2.2 h3⟩

/-- Witness for amended C8: two nonnegative-duration `end` calls on the
sample database never decrease the sample pilot's statistics. -/
theorem ledger_monotone_nonneg_end_witness :
    ∃ p', (run db1 [OpCall.endF 1 1 3600 7, OpCall.endF 1 1 5399 8]).getPilot 1
        = some p' ∧
      samplePilot.hours ≤ p'.hours ∧
      samplePilot.cargo_delivered ≤ p'.cargo_delivered ∧
      samplePilot.completed_flights ≤ p'.completed_flights := by
  refine ledger_monotone_nonneg_end _ db1 1 samplePilot ?_ (by decide)
  intro op hop
  rcases List.mem_cons.mp hop with rfl | hop
  · exact (by decide : (0:Int) ≤ 3600)
  · rcases List.mem_singleton.mp hop with rfl
    exact (by decide : (0:Int) ≤ 5399)

/-- C9: an authorized pause or resume changes only the log's status field:
the log's flight number, duration, completion time, creation time,
departure and arrival data all survive, and every pilot record is
untouched. -/
theorem pause_resume_status_only (db : DB) (sp lid : Nat) (l : FlightLog)
    (hl : db.getLog lid = some l) (hown : l.pilot_id = sp) :
    ((step db (OpCall.pause sp lid)).pilots = db.pilots ∧
      ∃ l', (step db (OpCall.pause sp lid)).getLog lid = some l' ∧
        l'.status = "Paused" ∧
        l'.flight_number = l.flight_number ∧
        l'.flight_duration = l.flight_duration ∧
        l'.completed_at = l.completed_at ∧
        l'.created_at = l.created_at ∧
        l'.departure_airport = l.departure_airport ∧
        l'.arrival_airport = l.arrival_airport ∧
        l'.departure_time = l.departure_time ∧
        l'.cargo_type = l.cargo_type ∧
        l'.aircraft_type = l.aircraft_type ∧
        l'.pilot_id = l.pilot_id ∧ l'.id = l.id) ∧
    ((step db (OpCall.resume sp lid)).pilots = db.pilots ∧
      ∃ l', (step db (OpCall.resume sp lid)).getLog lid = some l' ∧
        l'.status = "In Progress" ∧
        l'.flight_number = l.flight_number ∧
        l'.flight_duration = l.flight_duration ∧
        l'.completed_at = l.completed_at ∧
        l'.created_at = l.created_at ∧
        l'.departure_airport = l.departure_airport ∧
        l'.arrival_airport = l.arrival_airport ∧
        l'.departure_time = l.departure_time ∧
        l'.cargo_type = l.cargo_type ∧
        l'.aircraft_type = l.aircraft_type ∧
        l'.pilot_id = l.pilot_id ∧ l'.id = l.id) := by
  constructor
  · rw [step_pause_ok hl hown]
    refine ⟨rfl, _, getLog_setLog_self hl (by rfl), ?_⟩
    exact ⟨rfl, rfl, rfl, rfl, rfl, rfl, rfl, rfl, rfl, rfl, rfl, rfl⟩
  · rw [step_resume_ok hl hown]
    refine ⟨rfl, _, getLog_setLog_self hl (by rfl), ?_⟩
    exact ⟨rfl, rfl, rfl, rfl, rfl, rfl, rfl, rfl, rfl, rfl, rfl, rfl⟩

/-- Witness for C9 on the sample database: after a pause the stored log
still carries flight number GTI_42 and a null completed_at, and the pilot
table is unchanged. -/
theorem pause_resume_status_only_witness :
    (step db1 (OpCall.pause 1 1)).pilots = db1.pilots ∧
    ∃ l', (step db1 (OpCall.pause 1 1)).getLog 1 = some l' ∧
      l'.status = "Paused" ∧ l'.flight_number = logGTI42.flight_number ∧
      l'.completed_at = logGTI42.completed_at := by
  obtain ⟨⟨hpil, l', hget, hst, hfn, -, hca, -⟩, -⟩ :=
    pause_resume_status_only db1 1 1 logGTI42 (by decide) (by decide)
  exact ⟨hpil, l', hget, hst, hfn, hca⟩

/-- C10 counterexample: `' cessna'` contains no comma, yet after
`add_aircraft(' cessna')` the stored list contains the stripped `'cessna'`
and not the id that was added, so the round-trip claim fails for ids with
surrounding whitespace. -/
theorem aircraft_roundtrip_breaks :
    (',' ∉ " cessna".toList) ∧
    " cessna".toList ∉
      (samplePilot.add_aircraft (" cessna".toList)).get_aircraft_list := by
  decide

/-- C10 (amended): for every nonempty aircraft id with no comma and no
surrounding whitespace (`strip` fixes it), after `add_aircraft(id)` the id
is a member of `get_aircraft_list()`, and adding an id that is already
listed leaves `aircraft_owned` unchanged. -/
theorem add_aircraft_membership_idem (p : Pilot) (aid : List Char) :
    (aid ≠ [] → ',' ∉ aid → pyStrip aid = aid →
      aid ∈ (p.add_aircraft aid).get_aircraft_list) ∧
    (aid ∈ p.get_aircraft_list →
      (p.add_aircraft aid).aircraft_owned = p.aircraft_owned) :=
  ⟨fun h1 h2 h3 => mem_add_aircraft p aid h1 h2 h3,
   fun h => by rw [add_aircraft_of_mem h]⟩

/-- Witness for amended C10: adding `'cessna'` makes it listed, and
re-adding the already-owned `'boeing_767'` leaves the encoding unchanged. -/
theorem add_aircraft_membership_idem_witness :
    "cessna".toList ∈
      (samplePilot.add_aircraft ("cessna".toList)).get_aircraft_list ∧
    (samplePilot.add_aircraft ("boeing_767".toList)).aircraft_owned =
      samplePilot.aircraft_owned := by
  obtain ⟨hmem, -⟩ := add_aircraft_membership_idem samplePilot ("cessna".toList)
  obtain ⟨-, hidem⟩ := add_aircraft_membership_idem samplePilot ("boeing_767".toList)
  exact ⟨hmem (by decide) (by decide) (by decide), hidem (by decide)⟩
